import Mathlib

/-!
Verification of the environment-state reconciliation core of `app.py`
(claude-code-webui): semantic-version extraction and comparison, tool-status
aggregation, the latest-version cache, the environment writer, and the
PATH reconciliation routines, shallowly embedded as pure Lean functions.
Machine effects (filesystem, registry, subprocesses, `os.environ`) are made
explicit as state records and oracle/fault parameters.
-/

set_option autoImplicit false

/-- ASCII whitespace recognized by Python's `str.strip()` (restricted to the
ASCII range, which is all that occurs in the program's data). -/
def isPySpace (c : Char) : Bool :=
  c = ' ' || c = '\t' || c = '\n' || c = '\r' || c = '\x0b' || c = '\x0c'

/-- `str.strip()` on a list of characters: drop whitespace from both ends. -/
def pyStripList (cs : List Char) : List Char :=
  ((cs.dropWhile isPySpace).reverse.dropWhile isPySpace).reverse

/-- Python `s.strip()`. -/
def pyStrip (s : String) : String :=
  String.mk (pyStripList s.data)

/-- Three-way lexicographic comparison of character lists by code point,
mirroring Python string comparison `(a > b) - (a < b)`. -/
def listCharCmp : List Char → List Char → Int
  | [], [] => 0
  | [], _ :: _ => -1
  | _ :: _, [] => 1
  | c :: cs, d :: ds => if c < d then -1 else if d < c then 1 else listCharCmp cs ds

/-- Python `(a > b) - (a < b)` on strings: lexicographic by code points. -/
def pyStrCmp (a b : String) : Int :=
  listCharCmp a.data b.data

/-- Python `s.split(sep)` for a single-character separator, on character
lists: `"" ↦ [""]`, separators at the ends produce empty components. -/
def splitOnChar (sep : Char) : List Char → List (List Char)
  | [] => [[]]
  | c :: rest =>
    match splitOnChar sep rest with
    | [] => [[]]
    | a :: as => if c = sep then [] :: a :: as else (c :: a) :: as

/-- Value accumulator for a Python decimal digit string that may contain
single underscores between digits (as accepted by `int()`). -/
def digitsValAux : Nat → List Char → Option Nat
  | acc, [] => some acc
  | acc, '_' :: c :: rest =>
    if c.isDigit then digitsValAux (acc * 10 + (c.toNat - 48)) rest else none
  | acc, c :: rest =>
    if c.isDigit then digitsValAux (acc * 10 + (c.toNat - 48)) rest else none

/-- Python `int(s)` on a character list: optional surrounding whitespace,
optional sign, then a non-empty digit sequence (single underscores allowed
between digits); `none` models `ValueError`. -/
def pyInt? (cs : List Char) : Option Int :=
  match pyStripList cs with
  | '+' :: c :: rest =>
    if c.isDigit then (digitsValAux (c.toNat - 48) rest).map Int.ofNat else none
  | '-' :: c :: rest =>
    if c.isDigit then (digitsValAux (c.toNat - 48) rest).map (fun n => -(n : Int)) else none
  | c :: rest =>
    if c.isDigit then (digitsValAux (c.toNat - 48) rest).map Int.ofNat else none
  | [] => none

/-- The list comprehension `[int(x) for x in s.split(".")]`: parse every
component, failing (raising) on the first non-numeric one. -/
def parseIntList : List (List Char) → Option (List Int)
  | [] => some []
  | c :: cs =>
    match pyInt? c, parseIntList cs with
    | some v, some vs => some (v :: vs)
    | _, _ => none

/-- The component loop of `compare_semver`: compare paired components
left to right (`zip` loop), then break ties by length. -/
def cmpIntLists : List Int → List Int → Int
  | [], [] => 0
  | [], _ :: _ => -1
  | _ :: _, [] => 1
  | x :: xs, y :: ys => if x < y then -1 else if y < x then 1 else cmpIntLists xs ys

/-- `compare_semver` from `app.py`: empty strings are minimal and equal to
each other; otherwise both strings are split on `.` and parsed as `int`
lists (an exception anywhere falls back to Python string comparison of the
whole strings), then compared component-wise with a length tie-break. -/
def compare_semver (a b : String) : Int :=
  if a = "" ∧ b = "" then 0
  else if a = "" then -1
  else if b = "" then 1
  else
    match parseIntList (splitOnChar '.' a.data), parseIntList (splitOnChar '.' b.data) with
    | some pa, some pb => cmpIntLists pa pb
    | some _, none => pyStrCmp a b
    | none, _ => pyStrCmp a b

/-- The comparison order as the specification describes it, written from the
spec's words: the empty string is the minimum element and two empties compare
equal; non-empty strings are split on `.` and compared component-wise as
integers left to right, the string with more components being greater when
all shared components are equal; any non-numeric component causes fallback to
lexicographic comparison of the whole strings. -/
def compareSemVerSpec (a b : String) : Int :=
  if a = "" then (if b = "" then 0 else -1)
  else if b = "" then 1
  else
    let ca := splitOnChar '.' a.data
    let cb := splitOnChar '.' b.data
    if (ca ++ cb).all (fun c => (pyInt? c).isSome) then
      cmpIntLists (ca.map (fun c => (pyInt? c).getD 0)) (cb.map (fun c => (pyInt? c).getD 0))
    else pyStrCmp a b

theorem parseIntList_isSome_iff (l : List (List Char)) :
    (parseIntList l).isSome = l.all (fun c => (pyInt? c).isSome) := by
  induction l with
  | nil => rfl
  | cons c cs ih =>
    simp only [parseIntList, List.all_cons, ← ih]
    cases h : pyInt? c <;> cases hm : parseIntList cs <;> simp [h, hm]

theorem parseIntList_eq_map (l : List (List Char)) (v : List Int)
    (h : parseIntList l = some v) : v = l.map (fun c => (pyInt? c).getD 0) := by
  induction l generalizing v with
  | nil =>
    simp only [parseIntList, Option.some.injEq] at h
    simp [← h]
  | cons c cs ih =>
    simp only [parseIntList] at h
    cases hc : pyInt? c with
    | none => simp [hc] at h
    | some x =>
      cases hm : parseIntList cs with
      | none => simp [hc, hm] at h
      | some xs =>
        simp only [hc, hm, Option.some.injEq] at h
        simp [← h, hc, ih xs hm]

/-- C2: `compare_semver` implements the specified order: empty string is the
minimum element, two empties compare equal; non-empty strings are split on
`.` and compared component-wise as integers left to right with the longer
component list greater on ties; a non-numeric component falls back to
lexicographic comparison of the whole strings — stated as extensional
equality with `compareSemVerSpec`, the order transcribed from the spec's
words, together with the spec's six concrete test vectors. -/
theorem compare_semver_implements_spec_order :
    (∀ a b : String, compare_semver a b = compareSemVerSpec a b)
    ∧ compare_semver "1.2.3" "1.2.3" = 0
    ∧ compare_semver "1.2.3" "1.2.4" = -1
    ∧ compare_semver "1.3.0" "1.2.10" = 1
    ∧ compare_semver "" "1.0.0" = -1
    ∧ compare_semver "1.0.0" "" = 1
    ∧ compare_semver "" "" = 0 := by
  refine ⟨fun a b => ?_, by decide, by decide, by decide, by decide, by decide, by decide⟩
  unfold compare_semver compareSemVerSpec
  by_cases ha : a = "" <;> by_cases hb : b = "" <;> simp only [ha, hb, if_true, if_false]
  · simp
  · simp
  · simp [hb]
  · simp only [ha, hb, and_self, if_false, ite_false, and_false]
    cases hA : parseIntList (splitOnChar '.' a.data) with
    | none =>
      have hall : (splitOnChar '.' a.data).all (fun c => (pyInt? c).isSome) = false := by
        rw [← parseIntList_isSome_iff, hA]; rfl
      simp [List.all_append, hall]
    | some pa =>
      cases hB : parseIntList (splitOnChar '.' b.data) with
      | none =>
        have hall : (splitOnChar '.' b.data).all (fun c => (pyInt? c).isSome) = false := by
          rw [← parseIntList_isSome_iff, hB]; rfl
        simp [List.all_append, hall]
      | some pb =>
        have hallA : (splitOnChar '.' a.data).all (fun c => (pyInt? c).isSome) = true := by
          rw [← parseIntList_isSome_iff, hA]; rfl
        have hallB : (splitOnChar '.' b.data).all (fun c => (pyInt? c).isSome) = true := by
          rw [← parseIntList_isSome_iff, hB]; rfl
        simp [List.all_append, hallA, hallB,
          ← parseIntList_eq_map _ _ hA, ← parseIntList_eq_map _ _ hB]

/-- One attempt of the regex `(\d+)\.(\d+)\.(\d+)` anchored at the head of
`cs`, as `re.search` performs at each start position: each `\d+` greedily
takes the maximal digit run (backtracking cannot shorten it, since every
shorter run is followed by a digit, not by `.`), and the literal dots must
follow the first two runs.  Returns `group(0)` of the match. -/
def matchAt (cs : List Char) : Option (List Char) :=
  let d1 := cs.takeWhile Char.isDigit
  let r1 := cs.dropWhile Char.isDigit
  match d1, r1 with
  | [], _ => none
  | _ :: _, '.' :: r1x =>
    let d2 := r1x.takeWhile Char.isDigit
    let r2 := r1x.dropWhile Char.isDigit
    match d2, r2 with
    | [], _ => none
    | _ :: _, '.' :: r2x =>
      let d3 := r2x.takeWhile Char.isDigit
      match d3 with
      | [] => none
      | _ :: _ => some (d1 ++ '.' :: (d2 ++ '.' :: d3))
    | _, _ => none
  | _, _ => none

/-- `re.search` left-to-right scan: try a match at every start position in
order and return the first success. -/
def searchFrom : List Char → Option (List Char)
  | [] => none
  | c :: rest =>
    match matchAt (c :: rest) with
    | some m => some m
    | none => searchFrom rest

/-- `extract_semver` from `app.py`: the first `x.y.z` substring of the text
(via `re.search(r"(\d+)\.(\d+)\.(\d+)", text)`), or `""` when there is none. -/
def extract_semver (s : String) : String :=
  match searchFrom s.data with
  | some m => String.mk m
  | none => ""

/-- Every character of the list is a decimal digit. -/
def AllDigits (l : List Char) : Prop := ∀ c ∈ l, c.isDigit = true

/-- The spec's pattern `<digits>.<digits>.<digits>`: three non-empty digit
sequences joined by literal dots. -/
def SemShape (m : List Char) : Prop :=
  ∃ b c d : List Char, b ≠ [] ∧ c ≠ [] ∧ d ≠ [] ∧
    AllDigits b ∧ AllDigits c ∧ AllDigits d ∧ m = b ++ '.' :: (c ++ '.' :: d)

theorem allDigits_takeWhile (l : List Char) : AllDigits (l.takeWhile Char.isDigit) := by
  induction l with
  | nil => intro c hc; cases hc
  | cons a as ih =>
    intro c hc
    rw [List.takeWhile_cons] at hc
    by_cases h : a.isDigit
    · simp only [h, if_true, List.mem_cons] at hc
      cases hc with
      | inl e => exact e ▸ h
      | inr e => exact ih c e
    · simp [h] at hc

theorem takeWhile_of_all_head (p : Char → Bool) (b : List Char) (x : Char) (r : List Char)
    (hb : ∀ a ∈ b, p a = true) (hx : p x = false) :
    (b ++ x :: r).takeWhile p = b ∧ (b ++ x :: r).dropWhile p = x :: r := by
  induction b with
  | nil => simp [List.takeWhile_cons, List.dropWhile_cons, hx]
  | cons a as ih =>
    have ha : p a = true := hb a (List.mem_cons_self a as)
    have has : ∀ a' ∈ as, p a' = true := fun a' h' => hb a' (List.mem_cons_of_mem a h')
    have ih' := ih has
    constructor
    · simp [List.takeWhile_cons, ha, ih'.1]
    · simp [List.dropWhile_cons, ha, ih'.2]

theorem matchAt_some (cs m : List Char) (h : matchAt cs = some m) : SemShape m ∧ m <+: cs := by
  simp only [matchAt] at h
  split at h
  · exact Option.noConfusion h
  case _ c1 d1t r1x heq1 heq2 =>
    split at h
    · exact Option.noConfusion h
    case _ c2 d2t r2x heq3 heq4 =>
      split at h
      · exact Option.noConfusion h
      case _ c3 d3t heq5 =>
        have hm : m = cs.takeWhile Char.isDigit ++
            '.' :: (r1x.takeWhile Char.isDigit ++ '.' :: r2x.takeWhile Char.isDigit) := by
          injection h with h'
          exact h'.symm
        have e1 : cs = cs.takeWhile Char.isDigit ++ '.' :: r1x := by
          conv_lhs => rw [← List.takeWhile_append_dropWhile (p := Char.isDigit) (l := cs)]
          rw [heq2]
        have e2 : r1x = r1x.takeWhile Char.isDigit ++ '.' :: r2x := by
          conv_lhs => rw [← List.takeWhile_append_dropWhile (p := Char.isDigit) (l := r1x)]
          rw [heq4]
        constructor
        · refine ⟨cs.takeWhile Char.isDigit, r1x.takeWhile Char.isDigit,
            r2x.takeWhile Char.isDigit, by rw [heq1]; simp, by rw [heq3]; simp,
            by rw [heq5]; simp, allDigits_takeWhile cs, allDigits_takeWhile r1x,
            allDigits_takeWhile r2x, hm⟩
        · refine ⟨r2x.dropWhile Char.isDigit, ?_⟩
          rw [hm]
          conv_rhs => rw [e1]
          conv_rhs => rw [e2]
          conv_rhs =>
            rw [← List.takeWhile_append_dropWhile (p := Char.isDigit) (l := r2x)]
          simp [List.append_assoc]
    · exact Option.noConfusion h
  · exact Option.noConfusion h

theorem matchAt_isSome_of_shape (cs m : List Char) (hs : SemShape m) (hp : m <+: cs) :
    (matchAt cs).isSome = true := by
  obtain ⟨b, c, d, hb, hc, hd, db, dc, dd, hm⟩ := hs
  obtain ⟨t, ht⟩ := hp
  have hcs : cs = b ++ '.' :: (c ++ '.' :: (d ++ t)) := by
    rw [← ht, hm]; simp [List.append_assoc]
  have h1 := takeWhile_of_all_head Char.isDigit b '.' (c ++ '.' :: (d ++ t)) db (by decide)
  have h2 := takeWhile_of_all_head Char.isDigit c '.' (d ++ t) dc (by decide)
  obtain ⟨b0, bs, rfl⟩ := List.exists_cons_of_ne_nil hb
  obtain ⟨c0, ces, rfl⟩ := List.exists_cons_of_ne_nil hc
  obtain ⟨d0, ds, rfl⟩ := List.exists_cons_of_ne_nil hd
  have hd0 : d0.isDigit = true := dd d0 (List.mem_cons_self d0 ds)
  have h3 : List.takeWhile Char.isDigit ((d0 :: ds) ++ t) =
      d0 :: List.takeWhile Char.isDigit (ds ++ t) := by
    simp [List.takeWhile_cons, hd0]
  rw [hcs]
  simp only [matchAt, h1.1, h1.2, h2.1, h2.2, h3]
  simp

theorem searchFrom_eq_none_iff (cs : List Char) :
    searchFrom cs = none ↔ ∀ i, matchAt (cs.drop i) = none := by
  induction cs with
  | nil =>
    simp only [searchFrom, List.drop_nil, true_iff]
    intro i; rfl
  | cons c rest ih =>
    simp only [searchFrom]
    cases hM : matchAt (c :: rest) with
    | some m =>
      constructor
      · intro h; exact Option.noConfusion h
      · intro h
        have := h 0
        rw [List.drop_zero, hM] at this
        exact Option.noConfusion this
    | none =>
      constructor
      · intro h i
        cases i with
        | zero => rw [List.drop_zero]; exact hM
        | succ n => exact ih.mp h n
      · intro h
        exact ih.mpr (fun i => h (i + 1))

theorem searchFrom_some_leftmost (cs m : List Char) (h : searchFrom cs = some m) :
    ∃ i, matchAt (cs.drop i) = some m ∧ ∀ j, j < i → matchAt (cs.drop j) = none := by
  induction cs generalizing m with
  | nil => exact Option.noConfusion h
  | cons c rest ih =>
    simp only [searchFrom] at h
    cases hM : matchAt (c :: rest) with
    | some mv =>
      rw [hM] at h
      have h' : some mv = some m := h
      injection h' with h''
      refine ⟨0, ?_, fun j hj => absurd hj (Nat.not_lt_zero j)⟩
      rw [List.drop_zero, hM, h'']
    | none =>
      rw [hM] at h
      have h' : searchFrom rest = some m := h
      obtain ⟨i, h1, h2⟩ := ih m h'
      refine ⟨i + 1, h1, fun j hj => ?_⟩
      cases j with
      | zero => rw [List.drop_zero]; exact hM
      | succ n => exact h2 n (Nat.lt_of_succ_lt_succ hj)

theorem drop_of_infix_mem (m l : List Char) (h : m <:+: l) : ∃ i, m <+: l.drop i := by
  obtain ⟨s, t, he⟩ := h
  refine ⟨s.length, t, ?_⟩
  rw [← he, List.append_assoc, List.drop_left]

theorem infix_of_drop (m l : List Char) (i : Nat) (h : m <+: l.drop i) : m <:+: l := by
  obtain ⟨t, ht⟩ := h
  exact ⟨l.take i, t, by rw [List.append_assoc, ht, List.take_append_drop]⟩

/-- C3: for every input containing a `<digits>.<digits>.<digits>` substring,
`extract_semver` returns verbatim a substring of that shape whose start
position is leftmost (no such substring starts earlier); for every input
containing none it returns the empty string (an iff); and the spec's two
concrete examples hold. -/
theorem extract_semver_first_match :
    (∀ s : String, extract_semver s = "" ↔ ¬ ∃ m, SemShape m ∧ m <:+: s.data)
    ∧ (∀ s : String, (∃ m, SemShape m ∧ m <:+: s.data) →
        ∃ i r, SemShape r ∧ r <+: s.data.drop i ∧ extract_semver s = String.mk r ∧
          ∀ j r', j < i → SemShape r' → ¬ r' <+: s.data.drop j)
    ∧ extract_semver "v1.2.3-beta" = "1.2.3"
    ∧ extract_semver "no version here" = "" := by
  have hmain : ∀ s : String, (∃ m, SemShape m ∧ m <:+: s.data) →
      ∃ i r, SemShape r ∧ r <+: s.data.drop i ∧ extract_semver s = String.mk r ∧
        ∀ j r', j < i → SemShape r' → ¬ r' <+: s.data.drop j := by
    intro s hex
    obtain ⟨m, hs, hinf⟩ := hex
    obtain ⟨i0, hp0⟩ := drop_of_infix_mem m s.data hinf
    cases hS : searchFrom s.data with
    | none =>
      have := (searchFrom_eq_none_iff s.data).mp hS i0
      have hsome := matchAt_isSome_of_shape (s.data.drop i0) m hs hp0
      rw [this] at hsome
      exact absurd hsome (by simp)
    | some r =>
      obtain ⟨i, h1, h2⟩ := searchFrom_some_leftmost s.data r hS
      obtain ⟨hshape, hpre⟩ := matchAt_some (s.data.drop i) r h1
      refine ⟨i, r, hshape, hpre, ?_, ?_⟩
      · unfold extract_semver; rw [hS]
      · intro j r' hj hs' hp'
        have hnone := h2 j hj
        have hsome := matchAt_isSome_of_shape (s.data.drop j) r' hs' hp'
        rw [hnone] at hsome
        exact absurd hsome (by simp)
  refine ⟨?_, hmain, by decide, by decide⟩
  intro s
  constructor
  · intro he hex
    obtain ⟨i, r, hshape, _, hruns, _⟩ := hmain s hex
    rw [he] at hruns
    have : r = [] := by
      have := congrArg String.data hruns
      simpa using this.symm
    subst this
    obtain ⟨b, c, d, hb, _, _, _, _, _, habs⟩ := hshape
    exact hb (List.append_eq_nil.mp habs.symm).1
  · intro hno
    unfold extract_semver
    cases hS : searchFrom s.data with
    | none => rfl
    | some r =>
      obtain ⟨i, h1, _⟩ := searchFrom_some_leftmost s.data r hS
      obtain ⟨hshape, hpre⟩ := matchAt_some (s.data.drop i) r h1
      exact absurd ⟨r, hshape, infix_of_drop r s.data i hpre⟩ hno

theorem extract_semver_first_match_witness :
    ∃ i r, SemShape r ∧ r <+: (String.data "v1.2.3-beta").drop i ∧
      extract_semver "v1.2.3-beta" = String.mk r ∧
      ∀ j r', j < i → SemShape r' → ¬ r' <+: (String.data "v1.2.3-beta").drop j :=
  extract_semver_first_match.2.1 "v1.2.3-beta"
    ⟨['1', '.', '2', '.', '3'],
      ⟨['1'], ['2'], ['3'], by decide, by decide, by decide,
        fun c hc => by rw [List.mem_singleton.mp hc]; decide,
        fun c hc => by rw [List.mem_singleton.mp hc]; decide,
        fun c hc => by rw [List.mem_singleton.mp hc]; decide,
        by decide⟩,
      ⟨['v'], ['-', 'b', 'e', 't', 'a'], by decide⟩⟩

/-- The issue lists accumulated by `comprehensive_environment_check`, one per
checked component (the `overall_status` field carries no issues and is
excluded by the code's `isinstance`/`"issues" in component` filter). -/
structure EnvCheckResults where
  claude_cli_issues : List String
  ccui_issues : List String
  npm_issues : List String
  path_config_issues : List String
  env_files_issues : List String

/-- `sum(len(component["issues"]) for component in results.values() ...)`. -/
def total_issues (r : EnvCheckResults) : Nat :=
  r.claude_cli_issues.length + r.ccui_issues.length + r.npm_issues.length +
    r.path_config_issues.length + r.env_files_issues.length

/-- Step 6 of `comprehensive_environment_check`: the overall severity string
(`"正常"`/`"轻微问题"`/`"严重问题"`, i.e. ok / minor / severe) from the total
issue count. -/
def overall_status (r : EnvCheckResults) : String :=
  if total_issues r = 0 then "正常"
  else if total_issues r ≤ 2 then "轻微问题"
  else "严重问题"

/-- C9: the consolidated check's severity is classified exactly by the total
issue count: ok (`"正常"`) iff 0 issues, minor (`"轻微问题"`) iff between 1
and 2 inclusive, severe (`"严重问题"`) iff more than 2. -/
theorem overall_status_thresholds :
    ∀ r : EnvCheckResults,
      (overall_status r = "正常" ↔ total_issues r = 0)
      ∧ (overall_status r = "轻微问题" ↔ 1 ≤ total_issues r ∧ total_issues r ≤ 2)
      ∧ (overall_status r = "严重问题" ↔ 2 < total_issues r) := by
  intro r
  unfold overall_status
  split_ifs with h0 h2
  · exact ⟨by simp [h0], ⟨fun he => absurd he (by decide), fun hc => by omega⟩,
      ⟨fun he => absurd he (by decide), fun hc => by omega⟩⟩
  · exact ⟨⟨fun he => absurd he (by decide), fun hc => by omega⟩,
      ⟨fun _ => ⟨by omega, h2⟩, fun _ => rfl⟩,
      ⟨fun he => absurd he (by decide), fun hc => by omega⟩⟩
  · exact ⟨⟨fun he => absurd he (by decide), fun hc => by omega⟩,
      ⟨fun he => absurd he (by decide), fun hc => by omega⟩,
      ⟨fun _ => by omega, fun _ => rfl⟩⟩

/-- The process-wide latest-version cache (`LATEST_VERSION_CACHE`). -/
structure VersionCache where
  value : String
  updated_ts : Nat

/-- `get_cached_latest_version` from `app.py`: read the cached value, then
let a non-blank `FORCE_LATEST_VERSION` environment value (modelled as
`forceEnv`, `none` when the variable is absent) override it
(`return forced or value`). -/
def get_cached_latest_version (forceEnv : Option String) (c : VersionCache) : String :=
  let value := c.value
  let forced := pyStrip (forceEnv.getD "")
  if forced = "" then value else forced

/-- `set_cached_latest_version`: overwrite the cached value and timestamp. -/
def set_cached_latest_version (v : String) (now : Nat) (_c : VersionCache) : VersionCache :=
  { value := v, updated_ts := now }

/-- One iteration of `background_latest_version_refresher`'s loop body: query
the oracle (`Except.error` models a raised exception, swallowed by the
`except` clause; `Except.ok s` its returned string) and overwrite the cache
only when the result is non-empty. -/
def background_refresh_cycle (oracle : Except String String) (now : Nat)
    (c : VersionCache) : VersionCache :=
  match oracle with
  | Except.error _ => c
  | Except.ok latest => if latest = "" then c else set_cached_latest_version latest now c

/-- C4: a refresh cycle in which the oracle yields the empty string (or
raises) never blanks a previously cached non-empty value: the cache value is
unchanged and reading the cache (no override set) still yields it. -/
theorem refresher_never_blanks_cache :
    ∀ (c : VersionCache) (now : Nat), c.value ≠ "" →
      (background_refresh_cycle (Except.ok "") now c).value = c.value
      ∧ get_cached_latest_version none (background_refresh_cycle (Except.ok "") now c) = c.value
      ∧ ∀ e : String,
          get_cached_latest_version none (background_refresh_cycle (Except.error e) now c)
            = c.value := by
  intro c now _
  refine ⟨rfl, rfl, fun e => rfl⟩

theorem refresher_never_blanks_cache_witness :
    (background_refresh_cycle (Except.ok "") 7 ⟨"1.0.5", 0⟩).value = "1.0.5"
    ∧ get_cached_latest_version none (background_refresh_cycle (Except.ok "") 7 ⟨"1.0.5", 0⟩)
        = "1.0.5" :=
  ⟨(refresher_never_blanks_cache ⟨"1.0.5", 0⟩ 7 (by decide)).1,
   (refresher_never_blanks_cache ⟨"1.0.5", 0⟩ 7 (by decide)).2.1⟩

/-- C10: the cached-latest-version read is not a pure function of the cache:
a `FORCE_LATEST_VERSION` value that is non-empty after stripping is returned
instead of the cached value (and is itself non-empty, so callers never fall
back to the synchronous oracle query); when the variable is absent or blank,
the cache contents are returned. -/
theorem get_cached_latest_version_override :
    (∀ (c : VersionCache) (f : String), pyStrip f ≠ "" →
        get_cached_latest_version (some f) c = pyStrip f
        ∧ get_cached_latest_version (some f) c ≠ "")
    ∧ (∀ c : VersionCache, get_cached_latest_version none c = c.value)
    ∧ (∀ (c : VersionCache) (f : String), pyStrip f = "" →
        get_cached_latest_version (some f) c = c.value) := by
  refine ⟨fun c f hf => ?_, fun c => rfl, fun c f hf => ?_⟩
  · unfold get_cached_latest_version
    simp only [Option.getD_some]
    rw [if_neg hf]
    exact ⟨rfl, hf⟩
  · unfold get_cached_latest_version
    simp only [Option.getD_some]
    rw [if_pos hf]

theorem get_cached_latest_version_override_witness :
    get_cached_latest_version (some " 9.9.9 ") ⟨"", 0⟩ = pyStrip " 9.9.9 "
    ∧ get_cached_latest_version (some " 9.9.9 ") ⟨"", 0⟩ ≠ "" :=
  get_cached_latest_version_override.1 ⟨"", 0⟩ " 9.9.9 " (by decide)

/-- The status record produced by `get_claude_code_status`. -/
structure ToolStatus where
  installed : Bool
  source : String
  current_version : String
  latest_version : String
  needs_upgrade : Bool
  vscode_ext_id : String
deriving DecidableEq

/-- The detector/oracle outcomes consumed by `get_claude_code_status`:
the CLI probe result (`get_cli_claude_code_version`), the editor-extension
probe result (`get_vscode_claude_code_version`), the cached latest version
and the synchronous npm query result. -/
structure StatusEnv where
  cliInstalled : Bool
  cliVersion : String
  vscodeInstalled : Bool
  vscodeExtId : String
  vscodeVersion : String
  cachedLatest : String
  npmLatest : String

/-- `latest = get_cached_latest_version() or ""; if not latest: latest =
get_npm_latest_version(...) or ""`, as performed in every branch. -/
def status_latest_version (e : StatusEnv) : String :=
  if e.cachedLatest = "" then e.npmLatest else e.cachedLatest

/-- `get_claude_code_status` from `app.py`: CLI probe first; only when it
reports not-installed, the editor-extension probe; otherwise the
not-installed record.  `needs_upgrade` is the Python truthiness expression
`bool(latest and current and compare_semver(current, latest) < 0)`. -/
def get_claude_code_status (e : StatusEnv) : ToolStatus :=
  if e.cliInstalled then
    let latest := status_latest_version e
    { installed := true, source := "cli", current_version := e.cliVersion,
      latest_version := latest,
      needs_upgrade :=
        decide (latest ≠ "" ∧ e.cliVersion ≠ "" ∧ compare_semver e.cliVersion latest < 0),
      vscode_ext_id := "" }
  else if e.vscodeInstalled then
    let latest := status_latest_version e
    { installed := true, source := "vscode", current_version := e.vscodeVersion,
      latest_version := latest,
      needs_upgrade :=
        decide (latest ≠ "" ∧ e.vscodeVersion ≠ "" ∧ compare_semver e.vscodeVersion latest < 0),
      vscode_ext_id := e.vscodeExtId }
  else
    { installed := false, source := "", current_version := "",
      latest_version := status_latest_version e,
      needs_upgrade := false, vscode_ext_id := "" }

/-- C1: CLI detection takes precedence over extension detection: a CLI
"installed" outcome fixes `source = "cli"` and the CLI version, and makes
the result independent of the extension detector's outcome; only a CLI
"not-installed" outcome lets the extension detector determine the result.
In every record, `needs_upgrade = true` only if installed, both versions
non-empty and `compare_semver current latest < 0`; and `source` is the
empty value iff `installed` is false. -/
theorem get_claude_code_status_cli_precedence :
    ∀ e : StatusEnv,
      (e.cliInstalled = true →
        (get_claude_code_status e).source = "cli"
        ∧ (get_claude_code_status e).current_version = e.cliVersion
        ∧ (get_claude_code_status e).installed = true
        ∧ ∀ vi vx vv,
            get_claude_code_status
              { e with vscodeInstalled := vi, vscodeExtId := vx, vscodeVersion := vv }
              = get_claude_code_status e)
      ∧ (e.cliInstalled = false →
          (get_claude_code_status e).installed = e.vscodeInstalled
          ∧ (e.vscodeInstalled = true →
              (get_claude_code_status e).source = "vscode"
              ∧ (get_claude_code_status e).current_version = e.vscodeVersion))
      ∧ ((get_claude_code_status e).needs_upgrade = true →
          (get_claude_code_status e).installed = true
          ∧ (get_claude_code_status e).current_version ≠ ""
          ∧ (get_claude_code_status e).latest_version ≠ ""
          ∧ compare_semver (get_claude_code_status e).current_version
              (get_claude_code_status e).latest_version < 0)
      ∧ ((get_claude_code_status e).source = "" ↔ (get_claude_code_status e).installed = false) := by
  intro e
  cases hc : e.cliInstalled with
  | true =>
    have hr : get_claude_code_status e =
        { installed := true, source := "cli", current_version := e.cliVersion,
          latest_version := status_latest_version e,
          needs_upgrade := decide (status_latest_version e ≠ "" ∧ e.cliVersion ≠ ""
            ∧ compare_semver e.cliVersion (status_latest_version e) < 0),
          vscode_ext_id := "" } := by
      simp [get_claude_code_status, hc]
    refine ⟨fun _ => ⟨by rw [hr], by rw [hr], by rw [hr], fun vi vx vv => ?_⟩,
      fun hfc => Bool.noConfusion hfc, ?_, ?_⟩
    · simp [get_claude_code_status, hc, status_latest_version]
    · intro hn
      rw [hr] at hn
      have hd := of_decide_eq_true hn
      rw [hr]
      exact ⟨rfl, hd.2.1, hd.1, hd.2.2⟩
    · rw [hr]; simp
  | false =>
    cases hv : e.vscodeInstalled with
    | true =>
      have hr : get_claude_code_status e =
          { installed := true, source := "vscode", current_version := e.vscodeVersion,
            latest_version := status_latest_version e,
            needs_upgrade := decide (status_latest_version e ≠ "" ∧ e.vscodeVersion ≠ ""
              ∧ compare_semver e.vscodeVersion (status_latest_version e) < 0),
            vscode_ext_id := e.vscodeExtId } := by
        simp [get_claude_code_status, hc, hv]
      refine ⟨fun htc => Bool.noConfusion htc,
        fun _ => ⟨by rw [hr], fun _ => ⟨by rw [hr], by rw [hr]⟩⟩, ?_, ?_⟩
      · intro hn
        rw [hr] at hn
        have hd := of_decide_eq_true hn
        rw [hr]
        exact ⟨rfl, hd.2.1, hd.1, hd.2.2⟩
      · rw [hr]; simp
    | false =>
      have hr : get_claude_code_status e =
          { installed := false, source := "", current_version := "",
            latest_version := status_latest_version e,
            needs_upgrade := false, vscode_ext_id := "" } := by
        simp [get_claude_code_status, hc, hv]
      refine ⟨fun htc => Bool.noConfusion htc,
        fun _ => ⟨by rw [hr], fun hvt => Bool.noConfusion hvt⟩,
        ?_, ?_⟩
      · intro hn
        rw [hr] at hn
        exact Bool.noConfusion hn
      · rw [hr]; simp

theorem get_claude_code_status_cli_precedence_witness :
    (get_claude_code_status
        ⟨true, "1.0.30", true, "anthropic.claude-code", "9.9.9", "1.0.40", ""⟩).source = "cli"
    ∧ (get_claude_code_status
        ⟨true, "1.0.30", true, "anthropic.claude-code", "9.9.9", "1.0.40", ""⟩).current_version
        = "1.0.30" :=
  ⟨((get_claude_code_status_cli_precedence
      ⟨true, "1.0.30", true, "anthropic.claude-code", "9.9.9", "1.0.40", ""⟩).1 rfl).1,
   ((get_claude_code_status_cli_precedence
      ⟨true, "1.0.30", true, "anthropic.claude-code", "9.9.9", "1.0.40", ""⟩).1 rfl).2.1⟩

/-- The outcome of one raw subprocess invocation before
`run_command_safely`'s exception handling: a completed process, a raised
`FileNotFoundError`, or any other raised exception. -/
inductive SubprocOutcome where
  | completed (code : Int) (stdout : String) (stderr : String)
  | fileNotFound (msg : String)
  | otherError (msg : String)
deriving DecidableEq

/-- `run_command_safely` from `app.py`: never raises; a completed process
yields `(returncode, stdout.strip(), stderr.strip())`, `FileNotFoundError`
yields `(127, "", msg)` and any other exception `(1, "", msg)`. -/
def run_command_safely (raw : SubprocOutcome) : Int × String × String :=
  match raw with
  | SubprocOutcome.completed code out err => (code, pyStrip out, pyStrip err)
  | SubprocOutcome.fileNotFound msg => (127, "", msg)
  | SubprocOutcome.otherError msg => (1, "", msg)

/-- The ranked probe list built by `get_cli_claude_code_version`: the two
absolute-path invocations when `find_command_path("claude")` found a path,
then `claude-code --version`, the Windows `.cmd` variants, and the generic
`claude -v` / `claude --version`. -/
def commands_to_try (claudePath : Option String) (isWindows : Bool) : List (List String) :=
  (match claudePath with
   | some p => [[p, "--version"], [p, "-v"]]
   | none => []) ++
  [["claude-code", "--version"]] ++
  (if isWindows then [["claude.cmd", "--version"], ["claude.cmd", "-v"]] else []) ++
  [["claude", "-v"], ["claude", "--version"]]

/-- Success test of one probe: return code 0 and non-empty stdout. -/
def probeOk (run : List String → SubprocOutcome) (cmd : List String) : Prop :=
  (run_command_safely (run cmd)).1 = 0 ∧ (run_command_safely (run cmd)).2.1 ≠ ""

instance (run : List String → SubprocOutcome) (cmd : List String) :
    Decidable (probeOk run cmd) := by
  unfold probeOk; infer_instance

/-- The probe loop of `get_cli_claude_code_version`: first command whose
safely-run result has code 0 and non-empty output wins, with version
`extract_semver(out) or out.strip()`; all probes failing yields
`(False, "")`. -/
def probe_loop (run : List String → SubprocOutcome) : List (List String) → Bool × String
  | [] => (false, "")
  | cmd :: rest =>
    let r := run_command_safely (run cmd)
    if (r.1 = 0 ∧ r.2.1 ≠ "") then
      (true, if extract_semver r.2.1 = "" then pyStrip r.2.1 else extract_semver r.2.1)
    else probe_loop run rest

/-- `get_cli_claude_code_version`, with the path-resolution result and the
subprocess behaviour as oracle parameters. -/
def get_cli_claude_code_version (claudePath : Option String) (isWindows : Bool)
    (run : List String → SubprocOutcome) : Bool × String :=
  probe_loop run (commands_to_try claudePath isWindows)

theorem probe_loop_all_fail (run : List String → SubprocOutcome) (l : List (List String))
    (h : ∀ cmd ∈ l, ¬ probeOk run cmd) : probe_loop run l = (false, "") := by
  induction l with
  | nil => rfl
  | cons cmd rest ih =>
    have hf : ¬ ((run_command_safely (run cmd)).1 = 0
        ∧ (run_command_safely (run cmd)).2.1 ≠ "") := h cmd (List.mem_cons_self cmd rest)
    simp only [probe_loop]
    rw [if_neg hf]
    exact ih (fun c hc => h c (List.mem_cons_of_mem cmd hc))

theorem probe_loop_first_success (run : List String → SubprocOutcome)
    (cs₁ : List (List String)) (cmd : List String) (cs₂ : List (List String))
    (hfail : ∀ c ∈ cs₁, ¬ probeOk run c) (hok : probeOk run cmd) :
    probe_loop run (cs₁ ++ cmd :: cs₂) =
      (true, if extract_semver (run_command_safely (run cmd)).2.1 = ""
             then pyStrip (run_command_safely (run cmd)).2.1
             else extract_semver (run_command_safely (run cmd)).2.1) := by
  induction cs₁ with
  | nil =>
    have hok' : (run_command_safely (run cmd)).1 = 0
        ∧ (run_command_safely (run cmd)).2.1 ≠ "" := hok
    simp only [List.nil_append, probe_loop]
    rw [if_pos hok']
  | cons c cs ih =>
    have hf : ¬ ((run_command_safely (run c)).1 = 0
        ∧ (run_command_safely (run c)).2.1 ≠ "") := hfail c (List.mem_cons_self c cs)
    simp only [List.cons_append, probe_loop]
    rw [if_neg hf]
    exact ih (fun c' hc' => hfail c' (List.mem_cons_of_mem c hc'))

/-- C8: CLI detection never raises — exception outcomes are converted by
`run_command_safely` into non-zero codes, hence "probe failed", and the next
probe in the ranked list is tried; a resolved absolute path prepends two
probes but the full command-name list is still probed after them; the first
succeeding probe decides the result; and if every probe fails the function
returns `(false, "")`. -/
theorem get_cli_version_probe_fallback :
    ∀ (claudePath : Option String) (isWindows : Bool) (run : List String → SubprocOutcome),
      ((∀ cmd ∈ commands_to_try claudePath isWindows, ¬ probeOk run cmd) →
          get_cli_claude_code_version claudePath isWindows run = (false, ""))
      ∧ (∀ p, commands_to_try (some p) isWindows
            = [p, "--version"] :: [p, "-v"] :: commands_to_try none isWindows)
      ∧ (∀ msg, (run_command_safely (SubprocOutcome.fileNotFound msg)).1 = 127
          ∧ (run_command_safely (SubprocOutcome.otherError msg)).1 = 1)
      ∧ (∀ (cs₁ : List (List String)) (cmd : List String) (cs₂ : List (List String)),
          commands_to_try claudePath isWindows = cs₁ ++ cmd :: cs₂ →
          (∀ c ∈ cs₁, ¬ probeOk run c) → probeOk run cmd →
          get_cli_claude_code_version claudePath isWindows run =
            (true, if extract_semver (run_command_safely (run cmd)).2.1 = ""
                   then pyStrip (run_command_safely (run cmd)).2.1
                   else extract_semver (run_command_safely (run cmd)).2.1)) := by
  intro claudePath isWindows run
  refine ⟨fun h => probe_loop_all_fail run _ h, fun p => rfl, fun msg => ⟨rfl, rfl⟩,
    fun cs₁ cmd cs₂ he hfail hok => ?_⟩
  unfold get_cli_claude_code_version
  rw [he]
  exact probe_loop_first_success run cs₁ cmd cs₂ hfail hok

theorem get_cli_version_probe_fallback_witness :
    get_cli_claude_code_version (some "/usr/local/bin/claude") false
      (fun cmd => if cmd = ["claude", "-v"]
        then SubprocOutcome.completed 0 "1.2.3 (Claude Code)" ""
        else SubprocOutcome.fileNotFound "No such file or directory") = (true, "1.2.3") := by
  have h := (get_cli_version_probe_fallback (some "/usr/local/bin/claude") false
      (fun cmd => if cmd = ["claude", "-v"]
        then SubprocOutcome.completed 0 "1.2.3 (Claude Code)" ""
        else SubprocOutcome.fileNotFound "No such file or directory")).2.2.2
      [["/usr/local/bin/claude", "--version"], ["/usr/local/bin/claude", "-v"],
        ["claude-code", "--version"]]
      ["claude", "-v"] [["claude", "--version"]]
      (by decide) (by decide) (by decide)
  rw [h]
  decide

/-- The machine state touched by `apply_env_settings` (Unix branch): the
environment file's content, the `launchctl` user-session store, and the
current process's `os.environ` entries for the two variables. -/
structure EnvWorld where
  envFile : Option String
  persistBaseUrl : Option String
  persistAuthToken : Option String
  procBaseUrl : Option String
  procAuthToken : Option String
deriving DecidableEq

/-- Fault injection for `apply_env_settings`: whether the environment-file
write raises (`write_text` has no exception handler), and whether the
`launchctl setenv` commands fail (returning a non-zero code; they never
raise, `run_command_safely` catches everything). -/
structure EnvFaults where
  writeRaises : Bool
  setenvFails : Bool
deriving DecidableEq

/-- `write_env_file` (Unix branch): full overwrite of the environment file
with the two export lines; `none` models a raised filesystem error. -/
def write_env_file (baseurl apikey : String) (fault : Bool) (w : EnvWorld) : Option EnvWorld :=
  if fault then none
  else some { w with envFile := some ("export ANTHROPIC_BASE_URL=" ++ baseurl ++ "\n" ++
    "export ANTHROPIC_AUTH_TOKEN=" ++ apikey ++ "\n") }

/-- `launchctl_setenv` for the base-URL variable: on success update the
persistent store and return code 0; on failure leave it and return 1. -/
def launchctl_setenv_base (value : String) (fault : Bool) (w : EnvWorld) : EnvWorld × Int :=
  if fault then (w, 1) else ({ w with persistBaseUrl := some value }, 0)

/-- `launchctl_setenv` for the auth-token variable. -/
def launchctl_setenv_token (value : String) (fault : Bool) (w : EnvWorld) : EnvWorld × Int :=
  if fault then (w, 1) else ({ w with persistAuthToken := some value }, 0)

/-- `apply_env_settings` from `app.py`: write the env file, set the two
persistent variables, then set both in the process environment — in that
order, with no exception handling of its own.  The returned flag records
whether an exception propagated to the caller (aborting the remaining
steps), paired with the machine state when the call ends. -/
def apply_env_settings (baseurl apikey : String) (f : EnvFaults) (w : EnvWorld) :
    Bool × EnvWorld :=
  match write_env_file baseurl apikey f.writeRaises w with
  | none => (true, w)
  | some w1 =>
    let s1 := launchctl_setenv_base baseurl f.setenvFails w1
    let s2 := launchctl_setenv_token apikey f.setenvFails s1.1
    (false, { s2.1 with procBaseUrl := some baseurl, procAuthToken := some apikey })

/-- C5 counterexample: when the environment-file write raises (step 1
fails), `apply_env_settings` propagates the exception and the remaining
steps are never attempted — afterwards the process environment does NOT
hold the two variables, contradicting the claim that the three steps are
attempted unconditionally and the process environment is updated
regardless of whether steps 1–2 succeeded. -/
theorem apply_env_settings_counterexample :
    (apply_env_settings "https://api.example.com" "secret-key-1234" ⟨true, false⟩
        ⟨none, none, none, none, none⟩).1 = true
    ∧ (apply_env_settings "https://api.example.com" "secret-key-1234" ⟨true, false⟩
        ⟨none, none, none, none, none⟩).2.procBaseUrl ≠ some "https://api.example.com"
    ∧ (apply_env_settings "https://api.example.com" "secret-key-1234" ⟨true, false⟩
        ⟨none, none, none, none, none⟩).2.procAuthToken ≠ some "secret-key-1234" := by
  refine ⟨rfl, ?_, ?_⟩ <;> decide

/-- C5 (amended): the persistent-set and in-process steps are independent —
whenever step 1 (the environment-file write) does not raise, all remaining
steps are attempted in sequence and the process environment ends up holding
both variables even if the persistent `launchctl` sets fail; but a raising
step 1 propagates the exception, leaving every later step unattempted and
the state unchanged. -/
theorem apply_env_settings_amended :
    ∀ (baseurl apikey : String) (f : EnvFaults) (w : EnvWorld),
      (f.writeRaises = false →
        (apply_env_settings baseurl apikey f w).1 = false
        ∧ (apply_env_settings baseurl apikey f w).2.procBaseUrl = some baseurl
        ∧ (apply_env_settings baseurl apikey f w).2.procAuthToken = some apikey
        ∧ (apply_env_settings baseurl apikey f w).2.envFile =
            some ("export ANTHROPIC_BASE_URL=" ++ baseurl ++ "\n" ++
              "export ANTHROPIC_AUTH_TOKEN=" ++ apikey ++ "\n")
        ∧ (f.setenvFails = false →
            (apply_env_settings baseurl apikey f w).2.persistBaseUrl = some baseurl
            ∧ (apply_env_settings baseurl apikey f w).2.persistAuthToken = some apikey)
        ∧ (f.setenvFails = true →
            (apply_env_settings baseurl apikey f w).2.persistBaseUrl = w.persistBaseUrl
            ∧ (apply_env_settings baseurl apikey f w).2.persistAuthToken = w.persistAuthToken))
      ∧ (f.writeRaises = true → apply_env_settings baseurl apikey f w = (true, w)) := by
  intro baseurl apikey f w
  cases hw : f.writeRaises with
  | true =>
    refine ⟨fun hf => Bool.noConfusion hf, fun _ => ?_⟩
    simp [apply_env_settings, write_env_file, hw]
  | false =>
    refine ⟨fun _ => ?_, fun hf => Bool.noConfusion hf⟩
    cases hs : f.setenvFails with
    | true =>
      refine ⟨?_, ?_, ?_, ?_, fun hsf => Bool.noConfusion hsf,
        fun _ => ⟨?_, ?_⟩⟩ <;>
        simp [apply_env_settings, write_env_file, launchctl_setenv_base,
          launchctl_setenv_token, hw, hs]
    | false =>
      refine ⟨?_, ?_, ?_, ?_, fun _ => ⟨?_, ?_⟩,
        fun hsf => Bool.noConfusion hsf⟩ <;>
        simp [apply_env_settings, write_env_file, launchctl_setenv_base,
          launchctl_setenv_token, hw, hs]

theorem apply_env_settings_amended_witness :
    (apply_env_settings "https://api.example.com" "secret-key-1234" ⟨false, true⟩
        ⟨none, none, none, none, none⟩).2.procBaseUrl = some "https://api.example.com"
    ∧ (apply_env_settings "https://api.example.com" "secret-key-1234" ⟨false, true⟩
        ⟨none, none, none, none, none⟩).2.procAuthToken = some "secret-key-1234" :=
  ⟨((apply_env_settings_amended "https://api.example.com" "secret-key-1234" ⟨false, true⟩
      ⟨none, none, none, none, none⟩).1 rfl).2.1,
   ((apply_env_settings_amended "https://api.example.com" "secret-key-1234" ⟨false, true⟩
      ⟨none, none, none, none, none⟩).1 rfl).2.2.1⟩

/-- `pat` occurs at the head of the list. -/
def listStartsWith : List Char → List Char → Bool
  | [], _ => true
  | _ :: _, [] => false
  | a :: asx, b :: bs => a = b && listStartsWith asx bs

/-- Python's substring test `pat in hay` on character lists. -/
def listContains (pat : List Char) : List Char → Bool
  | [] => listStartsWith pat []
  | c :: rest => listStartsWith pat (c :: rest) || listContains pat rest

/-- Python's substring test `pat in hay` on strings. -/
def pyIn (pat hay : String) : Bool := listContains pat.data hay.data

/-- Python `s.lower()` (ASCII case mapping). -/
def lowerStr (s : String) : String := String.mk (s.data.map Char.toLower)

theorem str_data_append : ∀ a b : String, (a ++ b).data = a.data ++ b.data
  | ⟨_⟩, ⟨_⟩ => rfl

theorem listStartsWith_append_self (pat suf : List Char) :
    listStartsWith pat (pat ++ suf) = true := by
  induction pat with
  | nil => rfl
  | cons a asx ih => simp [listStartsWith, ih]

theorem listContains_of_startsWith (pat hay : List Char)
    (h : listStartsWith pat hay = true) : listContains pat hay = true := by
  cases hay with
  | nil => exact h
  | cons c rest => simp [listContains, h]

theorem listContains_prepend (pat pre rest : List Char)
    (h : listContains pat rest = true) : listContains pat (pre ++ rest) = true := by
  induction pre with
  | nil => exact h
  | cons c pre' ih =>
    have e : listContains pat ((c :: pre') ++ rest)
        = (listStartsWith pat ((c :: pre') ++ rest) || listContains pat (pre' ++ rest)) := rfl
    rw [e, ih]
    simp

theorem listContains_self_append (pat suf : List Char) :
    listContains pat (pat ++ suf) = true :=
  listContains_of_startsWith _ _ (listStartsWith_append_self pat suf)

theorem listContains_append_self (pre pat : List Char) :
    listContains pat (pre ++ pat) = true := by
  have h := listContains_self_append pat []
  rw [List.append_nil] at h
  exact listContains_prepend pat pre pat h

theorem splitOnChar_ne_nil (sep : Char) (l : List Char) : splitOnChar sep l ≠ [] := by
  cases l with
  | nil => simp [splitOnChar]
  | cons c rest =>
    simp only [splitOnChar]
    cases h : splitOnChar sep rest with
    | nil => simp
    | cons a asx =>
      by_cases hc : c = sep <;> simp [hc]

theorem splitOnChar_append_sep (sep : Char) (xs ys : List Char) :
    splitOnChar sep (xs ++ sep :: ys) = splitOnChar sep xs ++ splitOnChar sep ys := by
  induction xs with
  | nil =>
    simp only [List.nil_append, splitOnChar]
    cases h : splitOnChar sep ys with
    | nil => exact absurd h (splitOnChar_ne_nil sep ys)
    | cons a asx => simp
  | cons x xs ih =>
    have e : splitOnChar sep ((x :: xs) ++ sep :: ys)
        = (match splitOnChar sep (xs ++ sep :: ys) with
           | [] => [[]]
           | a :: asx => if x = sep then [] :: a :: asx else (x :: a) :: asx) := rfl
    rw [e, ih]
    cases h : splitOnChar sep xs with
    | nil => exact absurd h (splitOnChar_ne_nil sep xs)
    | cons a asx =>
      by_cases hx : x = sep <;> simp [hx, splitOnChar, h, List.cons_append]

theorem splitOnChar_of_not_mem (sep : Char) (xs : List Char) (h : sep ∉ xs) :
    splitOnChar sep xs = [xs] := by
  induction xs with
  | nil => rfl
  | cons x xs ih =>
    have hx : x ≠ sep := fun he => h (he ▸ List.mem_cons_self x xs)
    have hxs : sep ∉ xs := fun hm => h (List.mem_cons_of_mem x hm)
    simp [splitOnChar, ih hxs, hx]

/-- State touched by `ensure_unix_bin_on_path`: the two zsh startup files,
the `launchctl` user-session PATH store (`""` = unset), and the current
process `PATH` (read, never written, by the Unix variant). -/
structure UnixState where
  zprofile : String
  zshrc : String
  launchctlPATH : String
  procPATH : String
deriving DecidableEq

/-- Fault injection for `ensure_unix_bin_on_path`: file read/write raising
inside `append_if_missing` (swallowed by its `except: pass`), `launchctl
getenv` returning a non-zero code, `launchctl setenv` failing (its result is
ignored by the code). -/
structure UnixFaults where
  zprofileRW : Bool
  zshrcRW : Bool
  getenvFails : Bool
  setenvFails : Bool
deriving DecidableEq

/-- `append_if_missing` from `ensure_unix_bin_on_path`: if the target
directory string is not a substring of the file's content, append the
comment marker and an `export PATH="<localBin>:<currentPath>"` line; report
whether an append happened.  A raised read/write error is swallowed and
leaves the content unchanged. -/
def append_if_missing (localBin curPath : String) (fault : Bool) (content : String) :
    String × Bool :=
  if fault then (content, false)
  else if pyIn localBin content then (content, false)
  else (content ++ ("\n# Added by ccui setup: ensure local bin is on PATH\n" ++
    ("export PATH=\x22" ++ (localBin ++ (":" ++ (curPath ++ "\x22\n"))))), true)

/-- The `launchctl` part of `ensure_unix_bin_on_path`: read the session PATH
(falling back to the process PATH when the read fails or is empty), and if
the local bin directory is not one of its `:`-separated components, prepend
it and write the store back (a `setenv` failure leaves the store). -/
def unix_new_store (localBin : String) (getenvFails setenvFails : Bool)
    (store procPATH : String) : String :=
  let launchctlPath := if getenvFails = false ∧ store ≠ "" then store else procPATH
  if launchctlPath ≠ "" then
    if localBin.data ∈ splitOnChar ':' launchctlPath.data then store
    else if setenvFails then store
    else localBin ++ ":" ++ launchctlPath
  else store

/-- `", ".join(...)`. -/
def joinComma : List String → String
  | [] => ""
  | [x] => x
  | x :: y :: rest => x ++ ", " ++ joinComma (y :: rest)

/-- The body of `ensure_unix_bin_on_path` from `app.py` after its opening
`local_bin_dir.mkdir(parents=True, exist_ok=True)` (that unconditional,
unguarded `mkdir` — which can raise — is modeled by
`ensure_unix_bin_on_path_run`): append the export line to `~/.zprofile` and
`~/.zshrc` when missing, update the `launchctl` session PATH, and return
`(True, comma-joined list of appended files)` — always `True`, whatever
failed. -/
def ensure_unix_bin_on_path (home : String) (f : UnixFaults) (st : UnixState) :
    (Bool × String) × UnixState :=
  let localBin := home ++ "/.local/bin"
  let curPath := st.procPATH
  let r1 := append_if_missing localBin curPath f.zprofileRW st.zprofile
  let r2 := append_if_missing localBin curPath f.zshrcRW st.zshrc
  let appended := (if r1.2 then [home ++ "/.zprofile"] else []) ++
    (if r2.2 then [home ++ "/.zshrc"] else [])
  ((true, joinComma appended),
   { zprofile := r1.1, zshrc := r2.1,
     launchctlPATH := unix_new_store localBin f.getenvFails f.setenvFails st.launchctlPATH curPath,
     procPATH := st.procPATH })

theorem pyIn_appended (localBin curPath content : String) :
    pyIn localBin (content ++ ("\n# Added by ccui setup: ensure local bin is on PATH\n" ++
      ("export PATH=\x22" ++ (localBin ++ (":" ++ (curPath ++ "\x22\n")))))) = true := by
  unfold pyIn
  rw [str_data_append, str_data_append, str_data_append]
  apply listContains_prepend
  apply listContains_prepend
  apply listContains_prepend
  exact listContains_self_append _ _

theorem append_if_missing_idem (localBin curPath : String) (fault : Bool) (content : String) :
    append_if_missing localBin curPath fault
        (append_if_missing localBin curPath fault content).1
      = ((append_if_missing localBin curPath fault content).1, false) := by
  unfold append_if_missing
  cases fault with
  | true => simp
  | false =>
    by_cases h : pyIn localBin content = true
    · simp [h]
    · simp only [Bool.false_eq_true, if_false, h, pyIn_appended]
      simp [h, pyIn_appended]

theorem str_ne_empty_of_data_ne (s : String) (h : s.data ≠ []) : s ≠ "" := by
  intro he
  exact h (congrArg String.data he)

theorem prepend_colon_ne_empty (localBin path : String) : localBin ++ ":" ++ path ≠ "" := by
  apply str_ne_empty_of_data_ne
  rw [str_data_append, str_data_append]
  simp

theorem mem_split_prepend (localBin path : String) (h : ':' ∉ localBin.data) :
    localBin.data ∈ splitOnChar ':' (localBin ++ ":" ++ path).data := by
  rw [str_data_append, str_data_append]
  have e : ((localBin.data ++ (":" : String).data) ++ path.data)
      = localBin.data ++ ':' :: path.data := by
    simp [List.append_assoc]
  rw [e, splitOnChar_append_sep, splitOnChar_of_not_mem ':' localBin.data h]
  simp

theorem unix_new_store_cases (localBin : String) (g se : Bool) (store procPATH : String) :
    unix_new_store localBin g se store procPATH = store
    ∨ (se = false
       ∧ unix_new_store localBin g se store procPATH
           = localBin ++ ":" ++ (if g = false ∧ store ≠ "" then store else procPATH)
       ∧ (if g = false ∧ store ≠ "" then store else procPATH) ≠ ""
       ∧ localBin.data ∉
           splitOnChar ':' (if g = false ∧ store ≠ "" then store else procPATH).data) := by
  simp only [unix_new_store]
  by_cases h1 : (if g = false ∧ store ≠ "" then store else procPATH) ≠ ""
  · rw [if_pos h1]
    by_cases h2 : localBin.data ∈
        splitOnChar ':' (if g = false ∧ store ≠ "" then store else procPATH).data
    · rw [if_pos h2]; exact Or.inl rfl
    · rw [if_neg h2]
      cases se with
      | true => simp
      | false => refine Or.inr ⟨?_, ?_, h1, h2⟩ <;> simp
  · rw [if_neg h1]; exact Or.inl rfl

theorem unix_new_store_absorb_false (localBin : String) (se : Bool) (tail procPATH : String)
    (h : ':' ∉ localBin.data) :
    unix_new_store localBin false se (localBin ++ ":" ++ tail) procPATH
      = localBin ++ ":" ++ tail := by
  have hne : localBin ++ ":" ++ tail ≠ "" := prepend_colon_ne_empty localBin tail
  simp only [unix_new_store, eq_self_iff_true, true_and]
  rw [if_pos hne, if_pos hne, if_pos (mem_split_prepend localBin tail h)]

theorem unix_new_store_absorb_true (localBin : String) (se : Bool) (procPATH : String)
    (hse : se = false) (hp : procPATH ≠ "")
    (hmem : localBin.data ∉ splitOnChar ':' procPATH.data) :
    unix_new_store localBin true se (localBin ++ ":" ++ procPATH) procPATH
      = localBin ++ ":" ++ procPATH := by
  simp only [unix_new_store]
  rw [if_neg (show ¬((true = false) ∧ localBin ++ ":" ++ procPATH ≠ "") from
    fun hc => Bool.noConfusion hc.1)]
  rw [if_pos hp, if_neg hmem, hse]
  simp

theorem unix_new_store_idem (localBin : String) (g se : Bool) (store procPATH : String)
    (h : ':' ∉ localBin.data) :
    unix_new_store localBin g se (unix_new_store localBin g se store procPATH) procPATH
      = unix_new_store localBin g se store procPATH := by
  rcases unix_new_store_cases localBin g se store procPATH with hres | ⟨hse, hres, hlp, hmem⟩
  · rw [hres]; exact hres
  · cases g with
    | false =>
      rw [hres]
      exact unix_new_store_absorb_false localBin se _ procPATH h
    | true =>
      simp only [Bool.true_eq_false, false_and, if_false] at hres hlp hmem
      rw [hres]
      exact unix_new_store_absorb_true localBin se procPATH hse hlp hmem

theorem ensure_unix_idem (home : String) (f : UnixFaults) (st : UnixState)
    (h : ':' ∉ (home ++ "/.local/bin").data) :
    (ensure_unix_bin_on_path home f (ensure_unix_bin_on_path home f st).2).2
      = (ensure_unix_bin_on_path home f st).2 := by
  have h1 := congrArg Prod.fst
    (append_if_missing_idem (home ++ "/.local/bin") st.procPATH f.zprofileRW st.zprofile)
  have h2 := congrArg Prod.fst
    (append_if_missing_idem (home ++ "/.local/bin") st.procPATH f.zshrcRW st.zshrc)
  have h3 := unix_new_store_idem (home ++ "/.local/bin") f.getenvFails f.setenvFails
    st.launchctlPATH st.procPATH h
  simp only [ensure_unix_bin_on_path]
  simp [h1, h2, h3]

/-- State touched by `ensure_windows_bin_on_path`: whether `ccui.bat` exists
in each of the three candidate directories (`~\bin`,
`~\AppData\Local\bin`, `~\.local\bin`), the process `PATH`, and the
persistent user `PATH` kept in the `HKCU\Environment` registry value. -/
structure WinState where
  ccuiBat1 : Bool
  ccuiBat2 : Bool
  ccuiBat3 : Bool
  procPATH : String
  regPATH : String
deriving DecidableEq

/-- Fault injection for `ensure_windows_bin_on_path`: `reg query` raising
(caught by the surrounding `except`, reported as failure), `reg query`
returning non-zero or unparsable output (current user PATH treated as
empty), `setx` raising, and `setx` returning a non-zero code. -/
structure WinFaults where
  regQueryRaises : Bool
  regQueryFails : Bool
  setxRaises : Bool
  setxFailCode : Bool
deriving DecidableEq

/-- The candidate-directory selection of `ensure_windows_bin_on_path`:
first directory holding `ccui.bat`; otherwise the first candidate whose
lowercased string occurs in some `;`-separated component of the lowercased
process `PATH`; otherwise the default `~\bin` (which the code then
creates). -/
def choose_ccui_dir (home : String) (st : WinState) : String :=
  if st.ccuiBat1 then home ++ "\\bin"
  else if st.ccuiBat2 then home ++ "\\AppData\\Local\\bin"
  else if st.ccuiBat3 then home ++ "\\.local\\bin"
  else
    let parts := splitOnChar ';' (lowerStr st.procPATH).data
    if parts.any (fun p => listContains (lowerStr (home ++ "\\bin")).data p) then
      home ++ "\\bin"
    else if parts.any (fun p =>
        listContains (lowerStr (home ++ "\\AppData\\Local\\bin")).data p) then
      home ++ "\\AppData\\Local\\bin"
    else if parts.any (fun p =>
        listContains (lowerStr (home ++ "\\.local\\bin")).data p) then
      home ++ "\\.local\\bin"
    else home ++ "\\bin"

/-- The body of `ensure_windows_bin_on_path` from `app.py` after the
directory choice's `ccui_dir.mkdir(parents=True, exist_ok=True)` (that
`mkdir` runs, unguarded, whenever no `ccui.bat` was found, and is modeled
by `ensure_windows_bin_on_path_run`): pick the ccui directory, read the
persistent user PATH from the registry; if the directory already occurs in
it (case-insensitively) report success (also appending the directory to the
process PATH when missing there); otherwise append it to the user PATH via
`setx` and to the process PATH, reporting failure when `setx` fails or any
step inside the `try` raises. -/
def ensure_windows_bin_on_path (home : String) (f : WinFaults) (st : WinState) :
    (Bool × String) × WinState :=
  let ccuiDir := choose_ccui_dir home st
  if f.regQueryRaises then ((false, "PATH配置异常"), st)
  else
    let currentUserPath := if f.regQueryFails then "" else st.regPATH
    if currentUserPath ≠ "" ∧ pyIn (lowerStr ccuiDir) (lowerStr currentUserPath) then
      ((true, "目录已在用户PATH中: " ++ ccuiDir),
       if pyIn (lowerStr ccuiDir) (lowerStr st.procPATH) then st
       else { st with procPATH := st.procPATH ++ ";" ++ ccuiDir })
    else
      let newPath := if currentUserPath ≠ "" then currentUserPath ++ ";" ++ ccuiDir
                     else ccuiDir
      if f.setxRaises then ((false, "PATH配置异常"), st)
      else if f.setxFailCode then ((false, "添加用户PATH失败"), st)
      else ((true, "已添加到用户PATH: " ++ ccuiDir ++ " (新终端生效)"),
            { st with regPATH := newPath, procPATH := st.procPATH ++ ";" ++ ccuiDir })

/-- `ensure_unix_bin_on_path` as invoked: its first statement
`local_bin_dir.mkdir(parents=True, exist_ok=True)` sits outside any
`try`/`except`, so its failure (missing permissions, or a regular file at
`~/.local/bin`) raises to the caller before any store or file is modified.
`none` models that propagated exception; otherwise the body runs. -/
def ensure_unix_bin_on_path_run (home : String) (mkdirRaises : Bool) (f : UnixFaults)
    (st : UnixState) : Option ((Bool × String) × UnixState) :=
  if mkdirRaises = true then none
  else some (ensure_unix_bin_on_path home f st)

/-- `ensure_windows_bin_on_path` as invoked: when no `ccui.bat` was found in
any candidate directory, the chosen directory is created with
`mkdir(parents=True, exist_ok=True)` before the `try` block, so a failure
there raises to the caller; when a `ccui.bat` is present the `mkdir` is
skipped.  `none` models the propagated exception; otherwise the body runs. -/
def ensure_windows_bin_on_path_run (home : String) (mkdirRaises : Bool) (f : WinFaults)
    (st : WinState) : Option ((Bool × String) × WinState) :=
  if (st.ccuiBat1 || st.ccuiBat2 || st.ccuiBat3) = false ∧ mkdirRaises = true then none
  else some (ensure_windows_bin_on_path home f st)

theorem listContains_refl (pat : List Char) : listContains pat pat = true := by
  have h := listContains_self_append pat []
  rwa [List.append_nil] at h

theorem lowerStr_append (a b : String) : lowerStr (a ++ b) = lowerStr a ++ lowerStr b := by
  unfold lowerStr
  rw [str_data_append, List.map_append]
  rfl

theorem semi_not_mem_lower_dir (home suf : String) (hs : ';' ∉ (lowerStr home).data)
    (hsuf : ';' ∉ (lowerStr suf).data) : ';' ∉ (lowerStr (home ++ suf)).data := by
  rw [lowerStr_append, str_data_append]
  intro hm
  rcases List.mem_append.mp hm with h | h
  · exact hs h
  · exact hsuf h

theorem win_parts_append (p X : String) (hX : ';' ∉ (lowerStr X).data) :
    splitOnChar ';' (lowerStr (p ++ ";" ++ X)).data
      = splitOnChar ';' (lowerStr p).data ++ [(lowerStr X).data] := by
  rw [lowerStr_append, lowerStr_append, str_data_append, str_data_append]
  have hv : (lowerStr ";").data = [';'] := by decide
  have e : (((lowerStr p).data ++ (lowerStr ";").data) ++ (lowerStr X).data)
      = (lowerStr p).data ++ ';' :: (lowerStr X).data := by
    rw [hv, List.append_assoc]
    rfl
  rw [e, splitOnChar_append_sep, splitOnChar_of_not_mem ';' _ hX]

theorem pyIn_lower_suffix (cur X : String) :
    pyIn (lowerStr X) (lowerStr (cur ++ ";" ++ X)) = true := by
  have e : cur ++ ";" ++ X = (cur ++ ";") ++ X := rfl
  rw [e, lowerStr_append]
  unfold pyIn
  rw [str_data_append]
  exact listContains_append_self _ _

theorem pyIn_lower_refl (X : String) : pyIn (lowerStr X) (lowerStr X) = true :=
  listContains_refl _

theorem choose_ccui_dir_stable (home : String) (b1 b2 b3 : Bool) (p r rx : String)
    (hsemi : ';' ∉ (lowerStr home).data)
    (hc12 : listContains (lowerStr (home ++ "\\bin")).data
        (lowerStr (home ++ "\\AppData\\Local\\bin")).data = false)
    (hc13 : listContains (lowerStr (home ++ "\\bin")).data
        (lowerStr (home ++ "\\.local\\bin")).data = false)
    (hc23 : listContains (lowerStr (home ++ "\\AppData\\Local\\bin")).data
        (lowerStr (home ++ "\\.local\\bin")).data = false) :
    choose_ccui_dir home
      ⟨b1, b2, b3, p ++ ";" ++ choose_ccui_dir home ⟨b1, b2, b3, p, r⟩, rx⟩
      = choose_ccui_dir home ⟨b1, b2, b3, p, r⟩ := by
  have hX1 : ';' ∉ (lowerStr (home ++ "\\bin")).data :=
    semi_not_mem_lower_dir home "\\bin" hsemi (by decide)
  have hX2 : ';' ∉ (lowerStr (home ++ "\\AppData\\Local\\bin")).data :=
    semi_not_mem_lower_dir home "\\AppData\\Local\\bin" hsemi (by decide)
  have hX3 : ';' ∉ (lowerStr (home ++ "\\.local\\bin")).data :=
    semi_not_mem_lower_dir home "\\.local\\bin" hsemi (by decide)
  cases b1 with
  | true => rfl
  | false =>
  cases b2 with
  | true => rfl
  | false =>
  cases b3 with
  | true => rfl
  | false =>
  by_cases c1 : ((splitOnChar ';' (lowerStr p).data).any
      (fun q => listContains (lowerStr (home ++ "\\bin")).data q)) = true
  · have hch : choose_ccui_dir home ⟨false, false, false, p, r⟩ = home ++ "\\bin" := by
      simp [choose_ccui_dir, c1]
    rw [hch]
    simp only [choose_ccui_dir]
    rw [win_parts_append p (home ++ "\\bin") hX1]
    simp [List.any_append, c1]
  · by_cases c2 : ((splitOnChar ';' (lowerStr p).data).any
        (fun q => listContains (lowerStr (home ++ "\\AppData\\Local\\bin")).data q)) = true
    · have hch : choose_ccui_dir home ⟨false, false, false, p, r⟩
          = home ++ "\\AppData\\Local\\bin" := by
        simp [choose_ccui_dir, c1, c2]
      rw [hch]
      simp only [choose_ccui_dir]
      rw [win_parts_append p (home ++ "\\AppData\\Local\\bin") hX2]
      simp [List.any_append, c1, c2, hc12]
    · by_cases c3 : ((splitOnChar ';' (lowerStr p).data).any
          (fun q => listContains (lowerStr (home ++ "\\.local\\bin")).data q)) = true
      · have hch : choose_ccui_dir home ⟨false, false, false, p, r⟩
            = home ++ "\\.local\\bin" := by
          simp [choose_ccui_dir, c1, c2, c3]
        rw [hch]
        simp only [choose_ccui_dir]
        rw [win_parts_append p (home ++ "\\.local\\bin") hX3]
        simp [List.any_append, c1, c2, c3, hc13, hc23]
      · have hch : choose_ccui_dir home ⟨false, false, false, p, r⟩ = home ++ "\\bin" := by
          simp [choose_ccui_dir, c1, c2, c3]
        rw [hch]
        simp only [choose_ccui_dir]
        rw [win_parts_append p (home ++ "\\bin") hX1]
        simp [List.any_append, c1, c2, c3, listContains_refl]

theorem choose_ccui_dir_cases (home : String) (st : WinState) :
    choose_ccui_dir home st = home ++ "\\bin"
    ∨ choose_ccui_dir home st = home ++ "\\AppData\\Local\\bin"
    ∨ choose_ccui_dir home st = home ++ "\\.local\\bin" := by
  simp only [choose_ccui_dir]
  split_ifs <;> simp

theorem dir_ne_empty (home suf : String) (h : suf.data ≠ []) : home ++ suf ≠ "" := by
  apply str_ne_empty_of_data_ne
  rw [str_data_append]
  intro he
  exact h (List.append_eq_nil.mp he).2

theorem ensure_windows_idem (home : String) (f : WinFaults) (st : WinState)
    (hsemi : ';' ∉ (lowerStr home).data)
    (hc12 : listContains (lowerStr (home ++ "\\bin")).data
        (lowerStr (home ++ "\\AppData\\Local\\bin")).data = false)
    (hc13 : listContains (lowerStr (home ++ "\\bin")).data
        (lowerStr (home ++ "\\.local\\bin")).data = false)
    (hc23 : listContains (lowerStr (home ++ "\\AppData\\Local\\bin")).data
        (lowerStr (home ++ "\\.local\\bin")).data = false) :
    ((ensure_windows_bin_on_path home f
        (ensure_windows_bin_on_path home f st).2).2).regPATH
      = ((ensure_windows_bin_on_path home f st).2).regPATH := by
  obtain ⟨b1, b2, b3, p, r⟩ := st
  have hne : choose_ccui_dir home ⟨b1, b2, b3, p, r⟩ ≠ "" := by
    rcases choose_ccui_dir_cases home ⟨b1, b2, b3, p, r⟩ with h | h | h <;> rw [h] <;>
      [exact dir_ne_empty home "\\bin" (by decide);
       exact dir_ne_empty home "\\AppData\\Local\\bin" (by decide);
       exact dir_ne_empty home "\\.local\\bin" (by decide)]
  have hstab : ∀ rx : String,
      choose_ccui_dir home
        ⟨b1, b2, b3, p ++ ";" ++ choose_ccui_dir home ⟨b1, b2, b3, p, r⟩, rx⟩
        = choose_ccui_dir home ⟨b1, b2, b3, p, r⟩ :=
    fun rx => choose_ccui_dir_stable home b1 b2 b3 p r rx hsemi hc12 hc13 hc23
  cases hqr : f.regQueryRaises with
  | true =>
    have e1 : ensure_windows_bin_on_path home f ⟨b1, b2, b3, p, r⟩
        = ((false, "PATH配置异常"), ⟨b1, b2, b3, p, r⟩) := by
      simp [ensure_windows_bin_on_path, hqr]
    simp [e1]
  | false =>
    cases hqf : f.regQueryFails with
    | true =>
      cases hsr : f.setxRaises with
      | true =>
        have e1 : ensure_windows_bin_on_path home f ⟨b1, b2, b3, p, r⟩
            = ((false, "PATH配置异常"), ⟨b1, b2, b3, p, r⟩) := by
          simp [ensure_windows_bin_on_path, hqr, hqf, hsr]
        simp [e1]
      | false =>
        cases hsf : f.setxFailCode with
        | true =>
          have e1 : ensure_windows_bin_on_path home f ⟨b1, b2, b3, p, r⟩
              = ((false, "添加用户PATH失败"), ⟨b1, b2, b3, p, r⟩) := by
            simp [ensure_windows_bin_on_path, hqr, hqf, hsr, hsf]
          simp [e1]
        | false =>
          have e1 : ensure_windows_bin_on_path home f ⟨b1, b2, b3, p, r⟩
              = ((true, "已添加到用户PATH: " ++ choose_ccui_dir home ⟨b1, b2, b3, p, r⟩
                    ++ " (新终端生效)"),
                 ⟨b1, b2, b3, p ++ ";" ++ choose_ccui_dir home ⟨b1, b2, b3, p, r⟩,
                  choose_ccui_dir home ⟨b1, b2, b3, p, r⟩⟩) := by
            simp [ensure_windows_bin_on_path, hqr, hqf, hsr, hsf]
          have e2 : ensure_windows_bin_on_path home f
              ⟨b1, b2, b3, p ++ ";" ++ choose_ccui_dir home ⟨b1, b2, b3, p, r⟩,
               choose_ccui_dir home ⟨b1, b2, b3, p, r⟩⟩
              = ((true, "已添加到用户PATH: " ++ choose_ccui_dir home ⟨b1, b2, b3, p, r⟩
                    ++ " (新终端生效)"),
                 ⟨b1, b2, b3,
                  (p ++ ";" ++ choose_ccui_dir home ⟨b1, b2, b3, p, r⟩) ++ ";"
                    ++ choose_ccui_dir home ⟨b1, b2, b3, p, r⟩,
                  choose_ccui_dir home ⟨b1, b2, b3, p, r⟩⟩) := by
            simp [ensure_windows_bin_on_path, hqr, hqf, hsr, hsf, hstab]
          rw [e1]
          simp only
          rw [e2]
    | false =>
      by_cases hI : r ≠ "" ∧ pyIn (lowerStr (choose_ccui_dir home ⟨b1, b2, b3, p, r⟩))
          (lowerStr r) = true
      · by_cases hpp : pyIn (lowerStr (choose_ccui_dir home ⟨b1, b2, b3, p, r⟩))
            (lowerStr p) = true
        · have e1 : ensure_windows_bin_on_path home f ⟨b1, b2, b3, p, r⟩
              = ((true, "目录已在用户PATH中: " ++ choose_ccui_dir home ⟨b1, b2, b3, p, r⟩),
                 ⟨b1, b2, b3, p, r⟩) := by
            simp [ensure_windows_bin_on_path, hqr, hqf, hI, hpp]
          simp [e1]
        · have e1 : ensure_windows_bin_on_path home f ⟨b1, b2, b3, p, r⟩
              = ((true, "目录已在用户PATH中: " ++ choose_ccui_dir home ⟨b1, b2, b3, p, r⟩),
                 ⟨b1, b2, b3, p ++ ";" ++ choose_ccui_dir home ⟨b1, b2, b3, p, r⟩, r⟩) := by
            simp [ensure_windows_bin_on_path, hqr, hqf, hI, hpp]
          have hpp2 : pyIn (lowerStr (choose_ccui_dir home ⟨b1, b2, b3, p, r⟩))
              (lowerStr (p ++ ";" ++ choose_ccui_dir home ⟨b1, b2, b3, p, r⟩)) = true :=
            pyIn_lower_suffix p _
          have e2 : ensure_windows_bin_on_path home f
              ⟨b1, b2, b3, p ++ ";" ++ choose_ccui_dir home ⟨b1, b2, b3, p, r⟩, r⟩
              = ((true, "目录已在用户PATH中: " ++ choose_ccui_dir home ⟨b1, b2, b3, p, r⟩),
                 ⟨b1, b2, b3, p ++ ";" ++ choose_ccui_dir home ⟨b1, b2, b3, p, r⟩, r⟩) := by
            simp [ensure_windows_bin_on_path, hqr, hqf, hstab, hI, hpp2]
          rw [e1]
          simp only
          rw [e2]
      · cases hsr : f.setxRaises with
        | true =>
          have e1 : ensure_windows_bin_on_path home f ⟨b1, b2, b3, p, r⟩
              = ((false, "PATH配置异常"), ⟨b1, b2, b3, p, r⟩) := by
            simp [ensure_windows_bin_on_path, hqr, hqf, hI, hsr]
          simp [e1]
        | false =>
          cases hsf : f.setxFailCode with
          | true =>
            have e1 : ensure_windows_bin_on_path home f ⟨b1, b2, b3, p, r⟩
                = ((false, "添加用户PATH失败"), ⟨b1, b2, b3, p, r⟩) := by
              simp [ensure_windows_bin_on_path, hqr, hqf, hI, hsr, hsf]
            simp [e1]
          | false =>
            by_cases hr : r = ""
            · subst hr
              have e1 : ensure_windows_bin_on_path home f ⟨b1, b2, b3, p, ""⟩
                  = ((true, "已添加到用户PATH: " ++ choose_ccui_dir home ⟨b1, b2, b3, p, ""⟩
                        ++ " (新终端生效)"),
                     ⟨b1, b2, b3, p ++ ";" ++ choose_ccui_dir home ⟨b1, b2, b3, p, ""⟩,
                      choose_ccui_dir home ⟨b1, b2, b3, p, ""⟩⟩) := by
                simp [ensure_windows_bin_on_path, hqr, hqf, hsr, hsf]
              have hI2 : choose_ccui_dir home ⟨b1, b2, b3, p, ""⟩ ≠ ""
                  ∧ pyIn (lowerStr (choose_ccui_dir home
                        ⟨b1, b2, b3, p ++ ";" ++ choose_ccui_dir home ⟨b1, b2, b3, p, ""⟩,
                         choose_ccui_dir home ⟨b1, b2, b3, p, ""⟩⟩))
                      (lowerStr (choose_ccui_dir home ⟨b1, b2, b3, p, ""⟩)) = true := by
                constructor
                · exact hne
                · rw [hstab]
                  exact pyIn_lower_refl _
              have e2 : ((ensure_windows_bin_on_path home f
                  ⟨b1, b2, b3, p ++ ";" ++ choose_ccui_dir home ⟨b1, b2, b3, p, ""⟩,
                   choose_ccui_dir home ⟨b1, b2, b3, p, ""⟩⟩).2).regPATH
                  = choose_ccui_dir home ⟨b1, b2, b3, p, ""⟩ := by
                simp [ensure_windows_bin_on_path, hqr, hqf, hI2.1, hI2.2, apply_ite
                  WinState.regPATH]
              rw [e1]
              simp only
              rw [e2]
            · have hpyn : ¬ pyIn (lowerStr (choose_ccui_dir home ⟨b1, b2, b3, p, r⟩))
                  (lowerStr r) = true := fun hp => hI ⟨hr, hp⟩
              have e1 : ensure_windows_bin_on_path home f ⟨b1, b2, b3, p, r⟩
                  = ((true, "已添加到用户PATH: " ++ choose_ccui_dir home ⟨b1, b2, b3, p, r⟩
                        ++ " (新终端生效)"),
                     ⟨b1, b2, b3, p ++ ";" ++ choose_ccui_dir home ⟨b1, b2, b3, p, r⟩,
                      r ++ ";" ++ choose_ccui_dir home ⟨b1, b2, b3, p, r⟩⟩) := by
                simp [ensure_windows_bin_on_path, hqr, hqf, hpyn, hsr, hsf, hr]
              have hnp : r ++ ";" ++ choose_ccui_dir home ⟨b1, b2, b3, p, r⟩ ≠ "" := by
                apply str_ne_empty_of_data_ne
                rw [str_data_append, str_data_append]
                simp
              have hI2 : r ++ ";" ++ choose_ccui_dir home ⟨b1, b2, b3, p, r⟩ ≠ ""
                  ∧ pyIn (lowerStr (choose_ccui_dir home
                        ⟨b1, b2, b3, p ++ ";" ++ choose_ccui_dir home ⟨b1, b2, b3, p, r⟩,
                         r ++ ";" ++ choose_ccui_dir home ⟨b1, b2, b3, p, r⟩⟩))
                      (lowerStr (r ++ ";" ++ choose_ccui_dir home ⟨b1, b2, b3, p, r⟩))
                    = true := by
                constructor
                · exact hnp
                · rw [hstab]
                  exact pyIn_lower_suffix r _
              have e2 : ((ensure_windows_bin_on_path home f
                  ⟨b1, b2, b3, p ++ ";" ++ choose_ccui_dir home ⟨b1, b2, b3, p, r⟩,
                   r ++ ";" ++ choose_ccui_dir home ⟨b1, b2, b3, p, r⟩⟩).2).regPATH
                  = r ++ ";" ++ choose_ccui_dir home ⟨b1, b2, b3, p, r⟩ := by
                simp [ensure_windows_bin_on_path, hqr, hqf, hI2.1, hI2.2, apply_ite
                  WinState.regPATH]
              rw [e1]
              simp only
              rw [e2]

/-- C6: PATH reconciliation is idempotent.  Unix: a second call leaves the
startup files, the launchctl store and the process PATH exactly as the
first call left them (for any fixed fault pattern; the local-bin path
contains no `:`, as a home directory path does).  Windows: a second call
leaves the persisted user PATH (registry) as the first call left it (the
candidate directories contain no `;` and none is a substring of another,
as holds for real home directories).  Moreover, when the target directory
is already present in a startup file it is not appended again, and when it
is already a component of the persistent store (resp. a substring of the
registry PATH) the store is not modified and success is reported. -/
theorem ensure_bin_on_path_idempotent :
    (∀ (home : String) (f : UnixFaults) (st : UnixState),
        ':' ∉ (home ++ "/.local/bin").data →
        (ensure_unix_bin_on_path home f (ensure_unix_bin_on_path home f st).2).2
          = (ensure_unix_bin_on_path home f st).2)
    ∧ (∀ (home : String) (f : WinFaults) (st : WinState),
        ';' ∉ (lowerStr home).data →
        listContains (lowerStr (home ++ "\\bin")).data
          (lowerStr (home ++ "\\AppData\\Local\\bin")).data = false →
        listContains (lowerStr (home ++ "\\bin")).data
          (lowerStr (home ++ "\\.local\\bin")).data = false →
        listContains (lowerStr (home ++ "\\AppData\\Local\\bin")).data
          (lowerStr (home ++ "\\.local\\bin")).data = false →
        ((ensure_windows_bin_on_path home f
            (ensure_windows_bin_on_path home f st).2).2).regPATH
          = ((ensure_windows_bin_on_path home f st).2).regPATH)
    ∧ (∀ (home : String) (f : UnixFaults) (st : UnixState),
        pyIn (home ++ "/.local/bin") st.zprofile = true →
        pyIn (home ++ "/.local/bin") st.zshrc = true →
        f.getenvFails = false → st.launchctlPATH ≠ "" →
        (home ++ "/.local/bin").data ∈ splitOnChar ':' st.launchctlPATH.data →
        ensure_unix_bin_on_path home f st = ((true, ""), st))
    ∧ (∀ (home : String) (f : WinFaults) (st : WinState),
        f.regQueryRaises = false → f.regQueryFails = false → st.regPATH ≠ "" →
        pyIn (lowerStr (choose_ccui_dir home st)) (lowerStr st.regPATH) = true →
        ((ensure_windows_bin_on_path home f st).1).1 = true
        ∧ ((ensure_windows_bin_on_path home f st).2).regPATH = st.regPATH) := by
  refine ⟨ensure_unix_idem, ensure_windows_idem, ?_, ?_⟩
  · intro home f st h1 h2 hg hs hmem
    have e1 : append_if_missing (home ++ "/.local/bin") st.procPATH f.zprofileRW st.zprofile
        = (st.zprofile, false) := by
      unfold append_if_missing
      cases f.zprofileRW <;> simp [h1]
    have e2 : append_if_missing (home ++ "/.local/bin") st.procPATH f.zshrcRW st.zshrc
        = (st.zshrc, false) := by
      unfold append_if_missing
      cases f.zshrcRW <;> simp [h2]
    have e3 : unix_new_store (home ++ "/.local/bin") f.getenvFails f.setenvFails
        st.launchctlPATH st.procPATH = st.launchctlPATH := by
      simp only [unix_new_store]
      rw [if_pos (show f.getenvFails = false ∧ st.launchctlPATH ≠ "" from ⟨hg, hs⟩)]
      rw [if_pos hs, if_pos hmem]
    simp only [ensure_unix_bin_on_path, e1, e2, e3]
    rfl
  · intro home f st hqr hqf hr hin
    obtain ⟨b1, b2, b3, p, r⟩ := st
    constructor
    · simp [ensure_windows_bin_on_path, hqr, hqf, hr, hin]
    · simp [ensure_windows_bin_on_path, hqr, hqf, hr, hin, apply_ite WinState.regPATH]

theorem ensure_bin_on_path_idempotent_witness :
    (ensure_unix_bin_on_path "/home/u" ⟨false, false, false, false⟩
        (ensure_unix_bin_on_path "/home/u" ⟨false, false, false, false⟩ ⟨"", "", "", ""⟩).2).2
      = (ensure_unix_bin_on_path "/home/u" ⟨false, false, false, false⟩ ⟨"", "", "", ""⟩).2
    ∧ ((ensure_windows_bin_on_path "C:\\Users\\u" ⟨false, false, false, false⟩
        (ensure_windows_bin_on_path "C:\\Users\\u" ⟨false, false, false, false⟩
          ⟨false, false, false, "", ""⟩).2).2).regPATH
      = ((ensure_windows_bin_on_path "C:\\Users\\u" ⟨false, false, false, false⟩
          ⟨false, false, false, "", ""⟩).2).regPATH :=
  ⟨ensure_bin_on_path_idempotent.1 "/home/u" ⟨false, false, false, false⟩ ⟨"", "", "", ""⟩
      (by decide),
   ensure_bin_on_path_idempotent.2.1 "C:\\Users\\u" ⟨false, false, false, false⟩
      ⟨false, false, false, "", ""⟩ (by decide) (by decide) (by decide) (by decide)⟩

/-- C7 counterexample: on Unix, with the opening `mkdir` succeeding, a
filesystem failure of both startup-file writes is swallowed and the
function still reports `(True, "")` — success with no diagnostic —
contradicting the claim that every underlying read/write failure is
reported to the caller as `(false, message)`. -/
theorem ensure_path_failure_report_counterexample :
    ensure_unix_bin_on_path_run "/home/u" false ⟨true, true, false, false⟩ ⟨"", "", "", ""⟩
      = some ((true, ""), ⟨"", "", "", ""⟩) := by
  rfl

/-- C7 (amended): failures of the underlying PATH stores themselves never
propagate — the Windows variant reports a raising `reg query`, a raising
`setx` or a non-zero `setx` exit as `(false, message)`, and the Unix
variant swallows file and launchctl failures, reporting success
unconditionally with failed files merely missing from its message; but the
install-directory `mkdir` runs outside any handler (unconditionally on
Unix; on Windows whenever no `ccui.bat` exists) and its failure propagates
to the caller as an exception. -/
theorem ensure_path_failure_report_amended :
    (∀ (home : String) (f : UnixFaults) (st : UnixState),
        ensure_unix_bin_on_path_run home true f st = none)
    ∧ (∀ (home : String) (f : UnixFaults) (st : UnixState),
        ensure_unix_bin_on_path_run home false f st
            = some (ensure_unix_bin_on_path home f st)
        ∧ ((ensure_unix_bin_on_path home f st).1).1 = true)
    ∧ (∀ (home : String) (f : WinFaults) (st : WinState),
        (st.ccuiBat1 || st.ccuiBat2 || st.ccuiBat3) = false →
        ensure_windows_bin_on_path_run home true f st = none)
    ∧ (∀ (home : String) (mkdirRaises : Bool) (f : WinFaults) (st : WinState),
        ¬((st.ccuiBat1 || st.ccuiBat2 || st.ccuiBat3) = false ∧ mkdirRaises = true) →
        ensure_windows_bin_on_path_run home mkdirRaises f st
          = some (ensure_windows_bin_on_path home f st))
    ∧ (∀ (home : String) (f : WinFaults) (st : WinState), f.regQueryRaises = true →
        ensure_windows_bin_on_path home f st = ((false, "PATH配置异常"), st))
    ∧ (∀ (home : String) (f : WinFaults) (st : WinState),
        f.regQueryRaises = false → f.setxRaises = true →
        ¬((if f.regQueryFails = true then "" else st.regPATH) ≠ ""
          ∧ pyIn (lowerStr (choose_ccui_dir home st))
              (lowerStr (if f.regQueryFails = true then "" else st.regPATH)) = true) →
        ensure_windows_bin_on_path home f st = ((false, "PATH配置异常"), st))
    ∧ (∀ (home : String) (f : WinFaults) (st : WinState),
        f.regQueryRaises = false → f.setxRaises = false → f.setxFailCode = true →
        ¬((if f.regQueryFails = true then "" else st.regPATH) ≠ ""
          ∧ pyIn (lowerStr (choose_ccui_dir home st))
              (lowerStr (if f.regQueryFails = true then "" else st.regPATH)) = true) →
        ensure_windows_bin_on_path home f st = ((false, "添加用户PATH失败"), st)) := by
  refine ⟨fun home f st => rfl, fun home f st => ⟨rfl, rfl⟩, ?_, ?_, ?_, ?_, ?_⟩
  · intro home f st hb
    simp only [ensure_windows_bin_on_path_run]
    rw [if_pos ⟨hb, trivial⟩]
  · intro home mkdirRaises f st hc
    simp only [ensure_windows_bin_on_path_run]
    rw [if_neg hc]
  · intro home f st hqr
    simp [ensure_windows_bin_on_path, hqr]
  · intro home f st hqr hsr hc
    simp only [ensure_windows_bin_on_path, hqr, Bool.false_eq_true, if_false]
    rw [if_neg hc]
    simp [hsr]
  · intro home f st hqr hsr hsf hc
    simp only [ensure_windows_bin_on_path, hqr, Bool.false_eq_true, if_false]
    rw [if_neg hc]
    simp [hsr, hsf]

theorem ensure_path_failure_report_amended_witness :
    ensure_windows_bin_on_path_run "C:\\Users\\u" true ⟨false, false, false, false⟩
        ⟨false, false, false, "", ""⟩ = none
    ∧ ensure_windows_bin_on_path "C:\\Users\\u" ⟨true, false, false, false⟩
        ⟨false, false, false, "", ""⟩
      = ((false, "PATH配置异常"), ⟨false, false, false, "", ""⟩) :=
  ⟨ensure_path_failure_report_amended.2.2.1 "C:\\Users\\u" ⟨false, false, false, false⟩
      ⟨false, false, false, "", ""⟩ rfl,
   ensure_path_failure_report_amended.2.2.2.2.1 "C:\\Users\\u" ⟨true, false, false, false⟩
      ⟨false, false, false, "", ""⟩ rfl⟩
